import Mathlib

/-!
Verification of the osc-monitor event/metric aggregation core.

The definitions below are a shallow embedding of the TypeScript source:
  - src/lib/grafana.ts            (lokiQuery, rangeSeconds, stepForRange)
  - src/app/api/events/route.ts   (parsers, mergeAndDedup, GET)
  - src/app/api/instances/graph/route.ts
  - src/app/api/instances/drilldown/route.ts

JS strings are modelled as Lean String / List Char, JS numbers as Int/Nat
(the code only manipulates integer timestamps and counts; a JS NaN arising
from a failed parseInt is modelled as the value none of Option Int).
Regular expressions are embedded as explicit left-to-right scanning
functions with the exact leftmost-match/greedy semantics the source
patterns have.  External effects (fetch, JSON.parse) are passed in as
explicit values or function parameters.
-/

/-- Characters the JS regex class matches as whitespace (the log lines
only ever contain plain spaces; tabs and newlines are included for
completeness). -/
def isJsSpace (c : Char) : Bool :=
  c == ' ' || c == '\t' || c == '\n' || c == '\r'

/-- Model of JS parseInt(s, 10): skip leading whitespace, read an optional
sign and then a maximal run of decimal digits; none models the NaN result
when no digit is found. -/
def jsParseInt (s : String) : Option Int :=
  let l := s.data.dropWhile isJsSpace
  let signAndRest : Int × List Char :=
    match l with
    | '-' :: rest => (-1, rest)
    | '+' :: rest => (1, rest)
    | _ => (1, l)
  let ds := signAndRest.2.takeWhile Char.isDigit
  if ds.isEmpty then none
  else some (signAndRest.1 * (Int.ofNat (ds.foldl (fun n c => 10 * n + (c.toNat - 48)) 0)))

/-- Pattern check: does the second list start with the first one. -/
def startsWithChars : List Char → List Char → Bool
  | [], _ => true
  | _ :: _, [] => false
  | p :: ps, c :: cs => p == c && startsWithChars ps cs

/-- JS String.prototype.indexOf for a literal pattern: position of the
leftmost occurrence. -/
def findSub (pat : List Char) : List Char → Option Nat
  | [] => if startsWithChars pat [] then some 0 else none
  | l@(_ :: rest) =>
    if startsWithChars pat l then some 0
    else (findSub pat rest).map (· + 1)

/-- The JS idiom x || d on an optional string: null, undefined and the
empty string all fall back to the default. -/
def jsOrS (x : Option String) (d : String) : String :=
  match x with
  | some s => if s = "" then d else s
  | none => d

/-- Math.floor(parseInt(ts, 10) / 1_000_000): Loki nanosecond timestamp
string to milliseconds.  On a string with no leading integer JS would
produce NaN; the backend only supplies decimal nanosecond strings, and the
embedding returns 0 in that unused case. -/
def nsToMs (ts : String) : Int :=
  match jsParseInt ts with
  | some n => Int.fdiv n 1000000
  | none => 0

/-- The event taxonomy of src/app/api/events/route.ts. -/
inductive EventType where
  | instance_created
  | instance_removed
  | tenant_signup
  | solution_deployed
  | solution_destroyed
  | plan_upgrade
  | plan_downgrade
  | instance_restarted
  | other
deriving DecidableEq, Repr

/-- PlatformEvent of src/app/api/events/route.ts (the optional raw field is
never set by the parsers and is omitted). -/
structure PlatformEvent where
  id : String
  type : EventType
  emoji : String
  tenant : String
  description : String
  timestamp : Int
deriving DecidableEq, Repr

/-- makeId of src/app/api/events/route.ts. -/
def makeId (ts tenant ty : String) : String :=
  ts ++ "-" ++ tenant ++ "-" ++ ty

/-- Leftmost match of the regex customer=(\S+): scan for an occurrence of
the literal customer= that is followed by at least one non-space
character; the capture is the maximal non-space run after it. -/
def matchCustomerFrom : List Char → Option (List Char)
  | [] => none
  | l@(_ :: rest) =>
    if startsWithChars "customer=".data l then
      let cap := (l.drop 9).takeWhile (fun c => !isJsSpace c)
      if cap.isEmpty then matchCustomerFrom rest else some cap
    else matchCustomerFrom rest

/-- Leftmost match of the regex action (\S+) on resource (\S+): at each
occurrence of the literal action followed by a space, the first capture is
the maximal non-space run (greedy \S+ cannot stop earlier, because the
next pattern character is a space), which must be followed by the literal
on resource and a second non-empty non-space capture. -/
def matchActionFrom : List Char → Option (List Char × List Char)
  | [] => none
  | l@(_ :: rest) =>
    if startsWithChars "action ".data l then
      let t1 := l.drop 7
      let a := t1.takeWhile (fun c => !isJsSpace c)
      let t2 := t1.drop a.length
      if !a.isEmpty && startsWithChars " on resource ".data t2 then
        let b := (t2.drop 13).takeWhile (fun c => !isJsSpace c)
        if b.isEmpty then matchActionFrom rest else some (a, b)
      else matchActionFrom rest
    else matchActionFrom rest

/-- resource.replace of the trailing-quote regex: remove every quote at
the very end of the string. -/
def stripTrailingQuotes (l : List Char) : List Char :=
  (l.reverse.dropWhile (fun c => c == '"')).reverse

/-- JS String.prototype.split on the slash character, keeping empty
parts, as resource.split does in the source. -/
def splitSlashAux (cur : List Char) : List Char → List (List Char)
  | [] => [cur.reverse]
  | c :: rest =>
    if c == '/' then cur.reverse :: splitSlashAux [] rest
    else splitSlashAux (c :: cur) rest

def splitSlash (l : List Char) : List (List Char) :=
  splitSlashAux [] l

/-- parts[1] || resource of the source: index out of range (undefined) and
the empty string both fall back. -/
def jsIndexOr (parts : List String) (i : Nat) (d : String) : String :=
  match parts.get? i with
  | some s => if s = "" then d else s
  | none => d

/-- parseGUIAuditLine of src/app/api/events/route.ts. -/
def parseGUIAuditLine (ts line : String) : Option PlatformEvent :=
  match matchCustomerFrom line.data, matchActionFrom line.data with
  | some cust, some capture =>
    let tenant := String.mk cust
    let action := String.mk capture.1
    let resource := String.mk (stripTrailingQuotes capture.2)
    let timestamp := nsToMs ts
    let parts := (splitSlash resource.data).map String.mk
    if action = "create:instance" then
      some { id := makeId ts tenant "create_instance", type := .instance_created,
             emoji := "🚀", tenant,
             description := tenant ++ " created instance " ++ jsIndexOr parts 1 resource
               ++ " (" ++ jsIndexOr parts 0 "" ++ ")",
             timestamp }
    else if action = "delete:instance" then
      some { id := makeId ts tenant "delete_instance", type := .instance_removed,
             emoji := "🗑️", tenant,
             description := tenant ++ " removed instance " ++ jsIndexOr parts 1 resource
               ++ " (" ++ jsIndexOr parts 0 "" ++ ")",
             timestamp }
    else if action = "restart:instance" then
      some { id := makeId ts tenant "restart_instance", type := .instance_restarted,
             emoji := "🔄", tenant,
             description := tenant ++ " restarted instance " ++ jsIndexOr parts 1 resource,
             timestamp }
    else if action = "create:tenant" then
      some { id := makeId ts tenant "create_tenant", type := .tenant_signup,
             emoji := "👤", tenant,
             description := "New tenant signed up: " ++ tenant,
             timestamp }
    else if action = "deploy:solution" then
      some { id := makeId ts tenant "deploy_solution", type := .solution_deployed,
             emoji := "🔧", tenant,
             description := tenant ++ " deployed solution " ++ resource,
             timestamp }
    else if action = "delete:solution" then
      some { id := makeId ts tenant "delete_solution", type := .solution_destroyed,
             emoji := "💣", tenant,
             description := tenant ++ " destroyed solution " ++ resource,
             timestamp }
    else none
  | _, _ => none

/-- The six action verbs recognized by parseGUIAuditLine. -/
def guiActions : List String :=
  ["create:instance", "delete:instance", "restart:instance",
   "create:tenant", "deploy:solution", "delete:solution"]

/-- rangeSeconds of src/lib/grafana.ts: a fixed label table with an
undefined-lookup fallback of 3600 (no table entry is 0, so the JS || is an
exact default). -/
def rangeSeconds (label : String) : Int :=
  if label = "1h" then 3600
  else if label = "6h" then 21600
  else if label = "12h" then 43200
  else if label = "24h" then 86400
  else if label = "48h" then 172800
  else if label = "7d" then 604800
  else 3600

/-- stepForRange of src/lib/grafana.ts. -/
def stepForRange (rangeSecs : Int) : Int :=
  if rangeSecs ≤ 3600 then 60
  else if rangeSecs ≤ 21600 then 300
  else if rangeSecs ≤ 86400 then 600
  else if rangeSecs ≤ 172800 then 1200
  else 3600

/-- Descending-timestamp ordering used by the sort comparator
(a, b) fun of the source, which returns b.timestamp - a.timestamp. -/
def tsGE (a b : PlatformEvent) : Prop := b.timestamp ≤ a.timestamp

instance : DecidableRel tsGE :=
  fun a b => inferInstanceAs (Decidable (b.timestamp ≤ a.timestamp))

instance : IsTotal PlatformEvent tsGE :=
  ⟨fun a b => le_total b.timestamp a.timestamp⟩

instance : IsTrans PlatformEvent tsGE :=
  ⟨fun _ _ _ h1 h2 => le_trans h2 h1⟩

/-- JS Array.prototype.sort is a stable sort with respect to its
comparator; with the comparator b.timestamp - a.timestamp its result is
the unique stable descending-by-timestamp reordering, which insertion
sort with tsGE computes. -/
def sortDesc (l : List PlatformEvent) : List PlatformEvent :=
  List.insertionSort tsGE l

/-- Tenants of the audit-format tenant_signup events (the guiSignups set
of mergeAndDedup). -/
def guiSignupTenants (gui : List PlatformEvent) : List String :=
  (gui.filter (fun e => e.type == EventType.tenant_signup)).map (·.tenant)

/-- The final filter of mergeAndDedup: keep the first event of each id,
tracking ids already seen. -/
def dedupById : List String → List PlatformEvent → List PlatformEvent
  | _, [] => []
  | seen, e :: rest =>
    if e.id ∈ seen then dedupById seen rest
    else e :: dedupById (e.id :: seen) rest

/-- mergeAndDedup of src/app/api/events/route.ts. -/
def mergeAndDedup (gui signup plan mcp : List PlatformEvent) : List PlatformEvent :=
  let filteredSignups := signup.filter (fun e => !(guiSignupTenants gui).contains e.tenant)
  dedupById [] (sortDesc (gui ++ filteredSignups ++ plan ++ mcp))

/-- CHUNK_MS of src/app/api/events/route.ts: 3-day chunks per page load. -/
def CHUNK_MS : Int := 3 * 86400 * 1000

/-- MAX_HISTORY_MS of src/app/api/events/route.ts: 30-day total lookback. -/
def MAX_HISTORY_MS : Int := 30 * 86400 * 1000

/-- The window computation of the paginated branch of GET /api/events. -/
structure PageWindow where
  since : Int
  before : Int
  hasMore : Bool
deriving DecidableEq, Repr

/-- Paginated mode of GET /api/events: before defaults to now, the chunk
is the window since = before - CHUNK_MS up to before, and hasMore is the
strict comparison since > now - MAX_HISTORY_MS. -/
def paginatedWindow (now : Int) (beforeParam : Option Int) : PageWindow :=
  let before := beforeParam.getD now
  let since := before - CHUNK_MS
  { since, before, hasMore := decide (now - MAX_HISTORY_MS < since) }

/-- Cursor for the next (older) page: timestamp of the last event of the
page, or the chunk start when the page is empty. -/
def oldestTimestampOf (w : PageWindow) (events : List PlatformEvent) : Int :=
  match events.getLast? with
  | some e => e.timestamp
  | none => w.since

/-- One Loki stream: its list of (nanosecond-timestamp, line) pairs. -/
structure LokiStream where
  values : List (String × String)
deriving DecidableEq, Repr

/-- Parsed body of a 2xx Loki response. -/
structure LokiBody where
  status : String
  result : List LokiStream
deriving DecidableEq, Repr

/-- Outcome of one backend fetch: a rejected promise (network/transport
failure, which JS throws), a non-2xx response, or a parsed 2xx body. -/
inductive FetchOutcome where
  | netError (msg : String)
  | httpError (code : Nat)
  | success (body : LokiBody)
deriving DecidableEq, Repr

/-- lokiQuery of src/lib/grafana.ts: a non-2xx response and a non-success
status degrade to an empty result list; a rejected fetch propagates as a
thrown exception (Except.error). -/
def lokiQueryResult : FetchOutcome → Except String (List LokiStream)
  | .netError m => .error m
  | .httpError _ => .ok []
  | .success body => if body.status = "success" then .ok body.result else .ok []

/-- JSON values, the shape JSON.parse delivers to parseMCPAuditLine. -/
inductive Json where
  | null
  | jbool (b : Bool)
  | jnum (n : Int)
  | jstr (s : String)
  | jarr (items : List Json)
  | jobj (fields : List (String × Json))

/-- First-match association lookup (JSON.parse already collapses duplicate
keys, so object field lists are key-unique). -/
def findA {α β : Type} [DecidableEq α] : List (α × β) → α → Option β
  | [], _ => none
  | p :: rest, k => if p.1 = k then some p.2 else findA rest k

/-- JS property access data.k on a parsed JSON value: undefined (none)
unless the value is an object with the field. -/
def jsonField (j : Json) (k : String) : Option Json :=
  match j with
  | .jobj fields => findA fields k
  | _ => none

/-- JS truthiness of a possibly-undefined JSON value (NaN cannot occur in
parsed JSON). -/
def jsTruthyJ : Option Json → Bool
  | none => false
  | some .null => false
  | some (.jbool b) => b
  | some (.jnum n) => !(n == 0)
  | some (.jstr s) => !(s == "")
  | some (.jarr _) => true
  | some (.jobj _) => true

/-- Membership test of the JS Set of action strings: true only for a
string value contained in the list. -/
def setHas (l : List String) : Option Json → Bool
  | some (.jstr s) => l.contains s
  | _ => false

/-- The JS idiom data.k || d where the payload carries the field as a
string when present (a truthy non-string value never occurs in these
payloads and falls back to the default in the embedding). -/
def jsStrOr (j : Option Json) (d : String) : String :=
  match j with
  | some (.jstr s) => if s = "" then d else s
  | _ => d

/-- MCP_WRITE_ACTIONS of src/app/api/events/route.ts. -/
def MCP_WRITE_ACTIONS : List String :=
  ["create-database", "create-service-instance", "delete-service-instance",
   "restart-service-instance", "create-my-app", "delete-my-app",
   "restart-my-app", "deploy-solution", "remove-deployed-solution"]

/-- The global replace of the two-character sequence backslash-quote by a
quote, left to right without overlap. -/
def unescapeQuotes : List Char → List Char
  | '\\' :: '"' :: rest => '"' :: unescapeQuotes rest
  | c :: rest => c :: unescapeQuotes rest
  | [] => []

/-- parseMCPAuditLine of src/app/api/events/route.ts.  JSON.parse is an
external runtime function and is passed in as jsonParse; none models a
thrown SyntaxError, which the try/catch of the source turns into a null
return. -/
def parseMCPAuditLine (jsonParse : String → Option Json) (ts line : String) :
    Option PlatformEvent :=
  match findSub "msg=\"".data line.data with
  | none => none
  | some msgIdx =>
    let raw := (line.data.drop (msgIdx + 5)).dropLast
    let jsonStr := String.mk (unescapeQuotes raw)
    match jsonParse jsonStr with
    | none => none
    | some data =>
      let actionJ := jsonField data "action"
      if !jsTruthyJ actionJ || !setHas MCP_WRITE_ACTIONS actionJ
          || !jsTruthyJ (jsonField data "success") then none
      else
        let tenant := jsStrOr (jsonField data "tenantId") "unknown"
        let resource := jsStrOr (jsonField data "resource") ""
        let timestamp := nsToMs ts
        let act := match actionJ with
          | some (.jstr s) => s
          | _ => ""
        if act = "create-database" then
          let suffix := if jsTruthyJ (jsonField data "type") then
            " (" ++ jsStrOr (jsonField data "type") "" ++ ")" else ""
          some { id := makeId ts tenant "mcp_create_db", type := .instance_created,
                 emoji := "🚀", tenant,
                 description := tenant ++ " created database " ++ resource ++ suffix ++ " 🤖",
                 timestamp }
        else if act = "create-service-instance" then
          some { id := makeId ts tenant "mcp_create_instance", type := .instance_created,
                 emoji := "🚀", tenant,
                 description := tenant ++ " created instance " ++ resource ++ " 🤖",
                 timestamp }
        else if act = "delete-service-instance" then
          some { id := makeId ts tenant "mcp_delete_instance", type := .instance_removed,
                 emoji := "🗑️", tenant,
                 description := tenant ++ " removed instance " ++ resource ++ " 🤖",
                 timestamp }
        else if act = "restart-service-instance" then
          some { id := makeId ts tenant "mcp_restart_instance", type := .instance_restarted,
                 emoji := "🔄", tenant,
                 description := tenant ++ " restarted instance " ++ resource ++ " 🤖",
                 timestamp }
        else if act = "create-my-app" then
          some { id := makeId ts tenant "mcp_create_app", type := .instance_created,
                 emoji := "🚀", tenant,
                 description := tenant ++ " created app " ++ resource ++ " 🤖",
                 timestamp }
        else if act = "delete-my-app" then
          some { id := makeId ts tenant "mcp_delete_app", type := .instance_removed,
                 emoji := "🗑️", tenant,
                 description := tenant ++ " deleted app " ++ resource ++ " 🤖",
                 timestamp }
        else if act = "restart-my-app" then
          some { id := makeId ts tenant "mcp_restart_app", type := .instance_restarted,
                 emoji := "🔄", tenant,
                 description := tenant ++ " restarted app " ++ resource ++ " 🤖",
                 timestamp }
        else if act = "deploy-solution" then
          some { id := makeId ts tenant "mcp_deploy_solution", type := .solution_deployed,
                 emoji := "🔧", tenant,
                 description := tenant ++ " deployed solution " ++ resource ++ " 🤖",
                 timestamp }
        else if act = "remove-deployed-solution" then
          some { id := makeId ts tenant "mcp_remove_solution", type := .solution_destroyed,
                 emoji := "💣", tenant,
                 description := tenant ++ " destroyed solution " ++ resource ++ " 🤖",
                 timestamp }
        else none

/-- Characters that stop the capture of the regex email=([^&amp;\s"]+)
(written here in words: ampersand, whitespace, double quote). -/
def isEmailStop (c : Char) : Bool :=
  c == '&' || isJsSpace c || c == '"'

/-- Leftmost match of the email capture regex of fetchSignupEvents. -/
def matchEmailFrom : List Char → Option (List Char)
  | [] => none
  | l@(_ :: rest) =>
    if startsWithChars "email=".data l then
      let cap := (l.drop 6).takeWhile (fun c => !isEmailStop c)
      if cap.isEmpty then matchEmailFrom rest else some cap
    else matchEmailFrom rest

/-- Hexadecimal digit value. -/
def hexVal (c : Char) : Option Nat :=
  if c.isDigit then some (c.toNat - 48)
  else if 'A' ≤ c && c ≤ 'F' then some (c.toNat - 55)
  else if 'a' ≤ c && c ≤ 'f' then some (c.toNat - 87)
  else none

/-- Character-level model of decodeURIComponent: percent escapes decode to
the escaped code point.  Byte-level UTF-8 recombination of consecutive
escapes and the URIError thrown on a malformed escape are not modelled;
none of the verified claims exercises signup-line decoding. -/
def percentDecode : List Char → List Char
  | '%' :: a :: b :: rest =>
    match hexVal a, hexVal b with
    | some x, some y => Char.ofNat (16 * x + y) :: percentDecode rest
    | _, _ => '%' :: percentDecode (a :: b :: rest)
  | c :: rest => c :: percentDecode rest
  | [] => []

/-- Inner loop of fetchSignupEvents over the flattened (ts, line) pairs of
all streams, with the seen-email set threaded through: only the first
occurrence of each decoded email in the window becomes an event. -/
def signupLoop (seen : List String) : List (String × String) → List PlatformEvent
  | [] => []
  | (ts, line) :: rest =>
    match matchEmailFrom line.data with
    | some enc =>
      let email := String.mk (percentDecode enc)
      if email = "" ∨ email ∈ seen then signupLoop seen rest
      else
        { id := makeId ts email "signup", type := .tenant_signup, emoji := "👤",
          tenant := email, description := "New signup: " ++ email,
          timestamp := nsToMs ts } :: signupLoop (email :: seen) rest
    | none => signupLoop seen rest

/-- Leftmost match of the regex id=(\S+) of fetchPlanChangeEvents. -/
def matchIdFrom : List Char → Option (List Char)
  | [] => none
  | l@(_ :: rest) =>
    if startsWithChars "id=".data l then
      let cap := (l.drop 3).takeWhile (fun c => !isJsSpace c)
      if cap.isEmpty then matchIdFrom rest else some cap
    else matchIdFrom rest

/-- Loop of fetchPlanChangeEvents: every line yields a generic plan-change
event with tenant unknown; the id field (or the raw timestamp) only feeds
the event id. -/
def planEventsOf : List (String × String) → List PlatformEvent
  | [] => []
  | (ts, line) :: rest =>
    let requestId := match matchIdFrom line.data with
      | some cap => String.mk cap
      | none => ts
    { id := makeId ts requestId "plan_change", type := .plan_upgrade, emoji := "⬆️",
      tenant := "unknown", description := "Tenant updated plan",
      timestamp := nsToMs ts } :: planEventsOf rest

/-- The shared stream-walking loop of fetchGUIEvents and fetchMCPEvents:
run every (ts, line) pair of every stream through the parser, keeping the
events in order. -/
def parseStreams (parse : String → String → Option PlatformEvent)
    (streams : List LokiStream) : List PlatformEvent :=
  (streams.map (fun st => st.values.filterMap (fun p => parse p.1 p.2))).flatten

/-- fetchGUIEvents of src/app/api/events/route.ts, as a function of the
fetch outcome of its Loki query. -/
def fetchGUIEvents (o : FetchOutcome) : Except String (List PlatformEvent) :=
  (lokiQueryResult o).map (parseStreams parseGUIAuditLine)

/-- fetchMCPEvents of src/app/api/events/route.ts. -/
def fetchMCPEvents (jsonParse : String → Option Json) (o : FetchOutcome) :
    Except String (List PlatformEvent) :=
  (lokiQueryResult o).map (parseStreams (parseMCPAuditLine jsonParse))

/-- fetchSignupEvents of src/app/api/events/route.ts. -/
def fetchSignupEvents (o : FetchOutcome) : Except String (List PlatformEvent) :=
  (lokiQueryResult o).map (fun streams => signupLoop [] ((streams.map (·.values)).flatten))

/-- fetchPlanChangeEvents of src/app/api/events/route.ts. -/
def fetchPlanChangeEvents (o : FetchOutcome) : Except String (List PlatformEvent) :=
  (lokiQueryResult o).map (fun streams => planEventsOf ((streams.map (·.values)).flatten))

/-- Shape of the live-poll response that the claims observe: the event
list, and whether the 500 catch branch was taken (which always responds
with an empty event list). -/
structure EventsResponse where
  events : List PlatformEvent
  isError : Bool
deriving DecidableEq, Repr

/-- Live-poll branch of GET /api/events: Promise.all of the four fetches;
any rejection reaches the catch, which responds with an empty event list
and status 500; otherwise the four result lists are merged. -/
def liveGET (jsonParse : String → Option Json) (og os op om : FetchOutcome) :
    EventsResponse :=
  match fetchGUIEvents og, fetchSignupEvents os,
        fetchPlanChangeEvents op, fetchMCPEvents jsonParse om with
  | .ok g, .ok s, .ok p, .ok m => { events := mergeAndDedup g s p m, isError := false }
  | _, _, _, _ => { events := [], isError := true }

/-- One series of a Prometheus range-query result: the two labels the
routes read, and the optional (epoch-seconds, string-value) samples. -/
structure PromResult where
  labelNamespace : Option String
  labelCreatedByName : Option String
  values : Option (List (Nat × String))
deriving DecidableEq, Repr

/-- Is a sample value strictly positive (the JS comparison d.value > 0,
false on NaN). -/
def optPos : Option Int → Bool
  | some v => decide (0 < v)
  | none => false

/-- Series construction of GET /api/instances/graph: every sample is kept,
its value being parseInt of the string (none models NaN); a missing or
empty namespace label maps to unknown. -/
def graphSeries (results : List PromResult) : List (String × List (Nat × Option Int)) :=
  results.map (fun r =>
    (jsOrS r.labelNamespace "unknown",
     (r.values.getD []).map (fun q => (q.1 * 1000, jsParseInt q.2))))

/-- The nonZero filter of GET /api/instances/graph: keep the series having
some sample with value strictly greater than 0. -/
def graphNonZero (results : List PromResult) : List (String × List (Nat × Option Int)) :=
  (graphSeries results).filter (fun s => s.2.any (fun d => optPos d.2))

/-- Character class of the replica-set hash suffix regex: lowercase
letters and digits. -/
def isRsHashChar (c : Char) : Bool :=
  ('a' ≤ c && c ≤ 'z') || c.isDigit

/-- stripRsHash of src/app/api/instances/drilldown/route.ts: name.replace
of the regex matching a hyphen followed by 4 to 12 hash characters at the
end of the string.  Such a match, when it exists, is exactly the maximal
trailing hash-character run together with the hyphen just before it, since
the run must reach the end of the string. -/
def stripRsHash (name : String) : String :=
  let rev := name.data.reverse
  let run := rev.takeWhile isRsHashChar
  match rev.drop run.length with
  | '-' :: rest =>
    if 4 ≤ run.length ∧ run.length ≤ 12 then String.mk rest.reverse else name
  | _ => name

/-- Association-list update with JS object semantics: an existing key is
updated in place, a new key is appended (JS string-keyed property
insertion order). -/
def setA {α β : Type} [DecidableEq α] : List (α × β) → α → β → List (α × β)
  | [], k, v => [(k, v)]
  | p :: rest, k, v =>
    if p.1 = k then (k, v) :: rest else p :: setA rest k v

/-- Per-timestamp accumulator map of one grouped deployment name; a none
value models a NaN produced by a failed parseInt. -/
abbrev TsMap := List (Nat × Option Int)

/-- The grouped object of the drill-down route: deployment name to
timestamp map, in insertion order. -/
abbrev Grouped := List (String × TsMap)

/-- The accumulation step (grouped[name][ts] || 0) + parseInt(val):
an absent entry and a stored NaN both contribute 0 (NaN is falsy), and a
NaN addend makes the stored value NaN. -/
def jsAccum (old : Option (Option Int)) (v : Option Int) : Option Int :=
  let base : Int := match old with
    | some (some x) => x
    | _ => 0
  match v with
  | some w => some (base + w)
  | none => none

/-- Lookup of the grouped object at a deployment name and timestamp. -/
def groupedAt (g : Grouped) (name : String) (ts : Nat) : Option (Option Int) :=
  match findA g name with
  | some m => findA m ts
  | none => none

/-- Inner loop of the drill-down grouping over the samples of one raw
series, all booked under one deployment name. -/
def processValues (name : String) (g : Grouped) : List (Nat × String) → Grouped
  | [] => g
  | (ts, val) :: rest =>
    let tsMap := (findA g name).getD []
    let newMap := setA tsMap ts (jsAccum (findA tsMap ts) (jsParseInt val))
    processValues name (setA g name newMap) rest

/-- The logical series name of one raw result: label fallback to unknown,
then hash-suffix stripping. -/
def logicalName (r : PromResult) : String :=
  stripRsHash (jsOrS r.labelCreatedByName "unknown")

/-- Outer loop body of the drill-down grouping: ensure the deployment name
has an entry (as the source does before its inner loop), then book every
sample. -/
def processResult (g : Grouped) (r : PromResult) : Grouped :=
  let deployName := logicalName r
  let g1 := if (findA g deployName).isSome then g else g ++ [(deployName, [])]
  processValues deployName g1 (r.values.getD [])

/-- The complete grouped object of GET /api/instances/drilldown. -/
def drilldownGrouped (results : List PromResult) : Grouped :=
  results.foldl processResult []

/-- Ascending-time ordering of chart points. -/
def timeLe (a b : Nat × Option Int) : Prop := a.1 ≤ b.1

instance : DecidableRel timeLe :=
  fun a b => inferInstanceAs (Decidable (a.1 ≤ b.1))

/-- Series construction of GET /api/instances/drilldown: entries of each
timestamp map as (ms, value) points sorted by time, then the same
positive-sample filter as the graph route. -/
def drilldownSeries (results : List PromResult) : List (String × List (Nat × Option Int)) :=
  ((drilldownGrouped results).map (fun p =>
      (p.1, List.insertionSort timeLe (p.2.map (fun q => (q.1 * 1000, q.2))))))
    |>.filter (fun s => s.2.any (fun d => optPos d.2))

/-- Samples of one raw series at one timestamp (their string values, in
order). -/
def valuesAt (vals : List (Nat × String)) (ts : Nat) : List String :=
  (vals.filter (fun q => q.1 = ts)).map (·.2)

/-- Sum of the parsed values of a list of sample strings (all of which are
assumed to parse; the default 0 is never used under that hypothesis). -/
def parsedSum (l : List String) : Int :=
  (l.map (fun s => ((jsParseInt s).getD 0))).sum

/-- Specification-side total: the sample strings contributed to a logical
name at a timestamp by all raw series that collapse to that name. -/
def contributions (results : List PromResult) (name : String) (ts : Nat) : List String :=
  (results.map (fun r =>
    if logicalName r = name then valuesAt (r.values.getD []) ts else [])).flatten

/-- Range handling of GET /api/instances/graph: absent or empty range
parameter defaults to 1h. -/
def graphRangeStep (rangeParam : Option String) : Int × Int :=
  let range := jsOrS rangeParam "1h"
  let rs := rangeSeconds range
  (rs, stepForRange rs)

/-- Range handling of GET /api/instances/drilldown: absent or empty range
parameter defaults to 6h. -/
def drilldownRangeStep (rangeParam : Option String) : Int × Int :=
  let range := jsOrS rangeParam "6h"
  let rs := rangeSeconds range
  (rs, stepForRange rs)

theorem optPos_iff (o : Option Int) : optPos o = true ↔ ∃ v, o = some v ∧ 0 < v := by
  cases o <;> simp [optPos]

/-- C4: for every range duration, the query step follows the fixed policy
(at most 1h maps to a 60s step, at most 6h to 300s, at most 24h to 600s,
at most 48h to 1200s, anything larger to 3600s); in particular the label
24h maps to step 600 and the label 7d to step 3600. -/
theorem step_policy_spec (s : Int) :
    (s ≤ 3600 → stepForRange s = 60)
    ∧ (3600 < s → s ≤ 21600 → stepForRange s = 300)
    ∧ (21600 < s → s ≤ 86400 → stepForRange s = 600)
    ∧ (86400 < s → s ≤ 172800 → stepForRange s = 1200)
    ∧ (172800 < s → stepForRange s = 3600)
    ∧ stepForRange (rangeSeconds "24h") = 600
    ∧ stepForRange (rangeSeconds "7d") = 3600 := by
  refine ⟨fun h => ?_, fun h1 h2 => ?_, fun h1 h2 => ?_, fun h1 h2 => ?_, fun h => ?_,
    by decide, by decide⟩ <;>
  · unfold stepForRange
    split_ifs <;> omega

theorem step_policy_spec_witness : stepForRange 7200 = 300 :=
  (step_policy_spec 7200).2.1 (by decide) (by decide)

/-- C10 counterexample: with the range parameter missing, the drilldown
endpoint defaults the label to 6h, giving a 21600s range and a 300s step,
not the 3600s/60s the claim asserts. -/
theorem drilldown_default_range_cex :
    drilldownRangeStep none = (21600, 300) ∧ ((21600, 300) : Int × Int) ≠ (3600, 60) := by
  decide

/-- C10 amended: every nonempty range label outside the recognized set is
silently treated as 1h (3600s range, 60s step) by both endpoints; a
missing or empty parameter defaults to 1h on the graph endpoint but to 6h
(21600s range, 300s step) on the drilldown endpoint; neither endpoint
errors on the range parameter. -/
theorem range_fallback_spec (label : String)
    (h1 : label ∉ ["1h", "6h", "12h", "24h", "48h", "7d"]) (h2 : label ≠ "") :
    graphRangeStep (some label) = (3600, 60)
    ∧ drilldownRangeStep (some label) = (3600, 60)
    ∧ graphRangeStep none = (3600, 60)
    ∧ drilldownRangeStep none = (21600, 300) := by
  simp only [List.mem_cons, List.not_mem_nil, or_false, not_or] at h1
  obtain ⟨n1, n2, n3, n4, n5, n6⟩ := h1
  refine ⟨?_, ?_, by decide, by decide⟩ <;>
    simp [graphRangeStep, drilldownRangeStep, jsOrS, rangeSeconds, stepForRange,
      h2, n1, n2, n3, n4, n5, n6]

theorem range_fallback_spec_witness :
    graphRangeStep (some "2h") = (3600, 60)
    ∧ drilldownRangeStep (some "2h") = (3600, 60)
    ∧ graphRangeStep none = (3600, 60)
    ∧ drilldownRangeStep none = (21600, 300) :=
  range_fallback_spec "2h" (by decide) (by decide)

/-- C3: in paginated mode the page window is the 3-day chunk ending at the
before cursor (defaulting to now), hasMore holds exactly when the chunk
start is strictly newer than the 30-day lookback bound, and the oldest
timestamp reported is the last (oldest) event of the page, or the chunk
start when the page is empty. -/
theorem paginated_window_spec (now : Int) (beforeParam : Option Int)
    (events : List PlatformEvent) :
    (paginatedWindow now beforeParam).before = beforeParam.getD now
    ∧ (paginatedWindow now beforeParam).since = beforeParam.getD now - 3 * 86400 * 1000
    ∧ ((paginatedWindow now beforeParam).hasMore = true ↔
        now - 30 * 86400 * 1000 < beforeParam.getD now - 3 * 86400 * 1000)
    ∧ (∀ e, events.getLast? = some e →
        oldestTimestampOf (paginatedWindow now beforeParam) events = e.timestamp)
    ∧ (events = [] →
        oldestTimestampOf (paginatedWindow now beforeParam) events =
          beforeParam.getD now - 3 * 86400 * 1000) := by
  refine ⟨rfl, by norm_num [paginatedWindow, CHUNK_MS], ?_, ?_, ?_⟩
  · simp only [paginatedWindow, CHUNK_MS, MAX_HISTORY_MS, decide_eq_true_eq]
  · intro e he
    simp [oldestTimestampOf, he]
  · intro he
    subst he
    norm_num [oldestTimestampOf, paginatedWindow, CHUNK_MS, List.getLast?]

theorem paginated_window_spec_witness :
    oldestTimestampOf (paginatedWindow 2592000000 none) [] = 2592000000 - 3 * 86400 * 1000 :=
  (paginated_window_spec 2592000000 none []).2.2.2.2 rfl

/-- C7 counterexample: a sample whose string value fails integer parsing is
not excluded from the graph output series; it is carried through with a
NaN value (modelled as none). -/
theorem graph_failed_parse_cex :
    graphNonZero [{ labelNamespace := some "a", labelCreatedByName := none,
                    values := some [(1, "x"), (2, "5")] }] =
      [("a", [(1000, none), (2000, some 5)])]
    ∧ jsParseInt "x" = none := by
  decide

/-- C7 amended: in the graph aggregation every sample of a result series is
carried into the output series, a failed integer parse yielding a NaN
value (none) rather than being excluded or crashing; a missing or empty
grouping label maps to the placeholder unknown. -/
theorem graph_series_carry_spec (results : List PromResult) (r : PromResult)
    (hr : r ∈ results) (q : Nat × String) (hq : q ∈ r.values.getD []) :
    (jsOrS r.labelNamespace "unknown",
     (r.values.getD []).map (fun p => (p.1 * 1000, jsParseInt p.2))) ∈ graphSeries results
    ∧ (q.1 * 1000, jsParseInt q.2) ∈
        (r.values.getD []).map (fun p => (p.1 * 1000, jsParseInt p.2))
    ∧ (r.labelNamespace = none → jsOrS r.labelNamespace "unknown" = "unknown")
    ∧ (r.labelNamespace = some "" → jsOrS r.labelNamespace "unknown" = "unknown") := by
  refine ⟨List.mem_map_of_mem _ hr, List.mem_map_of_mem _ hq, ?_, ?_⟩ <;>
    (intro h; simp [jsOrS, h])

theorem graph_series_carry_spec_witness :
    ("a", [(1000, (none : Option Int)), (2000, some 5)]) ∈
      graphSeries [{ labelNamespace := some "a", labelCreatedByName := none,
                     values := some [(1, "x"), (2, "5")] }] :=
  (graph_series_carry_spec
    [{ labelNamespace := some "a", labelCreatedByName := none,
       values := some [(1, "x"), (2, "5")] }]
    { labelNamespace := some "a", labelCreatedByName := none,
      values := some [(1, "x"), (2, "5")] }
    (by decide) (1, "x") (by decide)).1

/-- C8: the graph output excludes every series all of whose sample values
are zero (every retained series has a strictly positive sample), and
retains every input series having at least one sample with value strictly
greater than zero. -/
theorem graph_zero_filter_spec (results : List PromResult) :
    (∀ s ∈ graphNonZero results, ∃ d ∈ s.2, ∃ v, d.2 = some v ∧ 0 < v)
    ∧ (∀ r ∈ results,
        (∃ d ∈ (r.values.getD []).map (fun q => (q.1 * 1000, jsParseInt q.2)),
          ∃ v, d.2 = some v ∧ 0 < v) →
        (jsOrS r.labelNamespace "unknown",
         (r.values.getD []).map (fun q => (q.1 * 1000, jsParseInt q.2))) ∈
          graphNonZero results) := by
  constructor
  · intro s hs
    have h := (List.mem_filter.mp hs).2
    rcases List.any_eq_true.mp h with ⟨d, hd, hpos⟩
    rcases (optPos_iff d.2).mp hpos with ⟨v, hv, hvpos⟩
    exact ⟨d, hd, v, hv, hvpos⟩
  · intro r hr ⟨d, hd, v, hv, hvpos⟩
    refine List.mem_filter.mpr ⟨List.mem_map_of_mem _ hr, ?_⟩
    exact List.any_eq_true.mpr ⟨d, hd, (optPos_iff d.2).mpr ⟨v, hv, hvpos⟩⟩

theorem graph_zero_filter_spec_witness :
    ("pos", [(1000, some 0), (2000, (some 5 : Option Int))]) ∈
      graphNonZero
        [{ labelNamespace := some "zero", labelCreatedByName := none,
           values := some [(1, "0"), (2, "0")] },
         { labelNamespace := some "pos", labelCreatedByName := none,
           values := some [(1, "0"), (2, "5")] }] :=
  (graph_zero_filter_spec
    [{ labelNamespace := some "zero", labelCreatedByName := none,
       values := some [(1, "0"), (2, "0")] },
     { labelNamespace := some "pos", labelCreatedByName := none,
       values := some [(1, "0"), (2, "5")] }]).2
    { labelNamespace := some "pos", labelCreatedByName := none,
      values := some [(1, "0"), (2, "5")] }
    (by decide) ⟨(2000, some 5), by decide, 5, rfl, by decide⟩

/-- C2: parseGUIAuditLine returns no event when the customer field or the
action-on-resource phrase is absent, returns no event for an action verb
outside the six recognized ones, and otherwise returns an event whose
timestamp is the source nanosecond timestamp integer-divided (floor) by
1000000; in particular the audit line of the specification example yields
an instance_created event for tenant acme at timestamp 1700000000000. -/
theorem parseGUIAuditLine_spec :
    (∀ ts line, matchCustomerFrom line.data = none ∨ matchActionFrom line.data = none →
      parseGUIAuditLine ts line = none)
    ∧ (∀ ts line cust cap, matchCustomerFrom line.data = some cust →
        matchActionFrom line.data = some cap →
        String.mk cap.1 ∉ guiActions → parseGUIAuditLine ts line = none)
    ∧ (∀ ts line e n, parseGUIAuditLine ts line = some e → jsParseInt ts = some n →
        e.timestamp = Int.fdiv n 1000000)
    ∧ parseGUIAuditLine "1700000000000000000"
        "customer=acme ... action create:instance on resource couchdb/acme-db-1" =
      some { id := "1700000000000000000-acme-create_instance", type := .instance_created,
             emoji := "🚀", tenant := "acme",
             description := "acme created instance acme-db-1 (couchdb)",
             timestamp := 1700000000000 } := by
  refine ⟨?_, ?_, ?_, by decide⟩
  · intro ts line h
    rcases h with h | h <;>
      cases hA : matchActionFrom line.data <;>
      cases hC : matchCustomerFrom line.data <;>
      simp_all [parseGUIAuditLine]
  · intro ts line cust cap hC hA hmem
    simp only [guiActions, List.mem_cons, List.not_mem_nil, or_false, not_or] at hmem
    obtain ⟨m1, m2, m3, m4, m5, m6⟩ := hmem
    simp [parseGUIAuditLine, hC, hA, m1, m2, m3, m4, m5, m6]
  · intro ts line e n hp hn
    unfold parseGUIAuditLine at hp
    cases hC : matchCustomerFrom line.data <;> rw [hC] at hp
    case none => exact absurd hp (by simp)
    cases hA : matchActionFrom line.data <;> rw [hA] at hp
    case none => exact absurd hp (by simp)
    simp only [] at hp
    split_ifs at hp <;>
      (cases hp; simp [nsToMs, hn])

theorem parseGUIAuditLine_spec_witness :
    parseGUIAuditLine "1" "no audit content here" = none :=
  parseGUIAuditLine_spec.1 "1" "no audit content here" (Or.inl (by decide))

theorem dedupById_sublist (seen : List String) (l : List PlatformEvent) :
    (dedupById seen l).Sublist l := by
  induction l generalizing seen with
  | nil => simp [dedupById]
  | cons e rest ih =>
    simp only [dedupById]
    split
    · exact (ih seen).cons e
    · exact (ih (e.id :: seen)).cons₂ e

theorem dedupById_nodup (seen : List String) (l : List PlatformEvent) :
    ((dedupById seen l).map (·.id)).Nodup
    ∧ ∀ e ∈ dedupById seen l, e.id ∉ seen := by
  induction l generalizing seen with
  | nil => simp [dedupById]
  | cons a rest ih =>
    simp only [dedupById]
    split
    · exact ih seen
    · rename_i ha
      obtain ⟨hnd, hseen⟩ := ih (a.id :: seen)
      refine ⟨?_, ?_⟩
      · simp only [List.map_cons, List.nodup_cons]
        refine ⟨?_, hnd⟩
        intro hmem
        rcases List.mem_map.mp hmem with ⟨e, he, heq⟩
        exact hseen e he (heq ▸ List.mem_cons_self _ _)
      · intro e he
        rcases List.mem_cons.mp he with rfl | he2
        · exact ha
        · exact fun hs => hseen e he2 (List.mem_cons_of_mem _ hs)

theorem dedupById_covers (seen : List String) (l : List PlatformEvent)
    (hs : List.Pairwise tsGE l) :
    ∀ e ∈ l, e.id ∉ seen →
      ∃ e2 ∈ dedupById seen l, e2.id = e.id ∧ e.timestamp ≤ e2.timestamp := by
  induction l generalizing seen with
  | nil => simp
  | cons a rest ih =>
    intro e he hid
    rcases List.mem_cons.mp he with rfl | he2
    · simp only [dedupById, if_neg hid]
      exact ⟨e, List.mem_cons_self _ _, rfl, le_refl _⟩
    · by_cases ha : a.id ∈ seen
      · simp only [dedupById, if_pos ha]
        exact ih seen hs.tail e he2 hid
      · simp only [dedupById, if_neg ha]
        by_cases heq : e.id = a.id
        · exact ⟨a, List.mem_cons_self _ _, heq.symm, (List.pairwise_cons.mp hs).1 e he2⟩
        · obtain ⟨e2, h1, h2, h3⟩ := ih (a.id :: seen) hs.tail e he2 (by simp [heq, hid])
          exact ⟨e2, List.mem_cons_of_mem _ h1, h2, h3⟩

/-- C1 counterexample: when two events share an id but not a timestamp,
the survivor is the first occurrence in the sorted order (the larger
timestamp), not the first occurrence in concatenation order of the four
source lists — here the gui event comes first in concatenation, yet the
mcp event is the one kept. -/
theorem mergeAndDedup_concat_order_cex :
    mergeAndDedup
      [{ id := "x", type := .other, emoji := "", tenant := "a", description := "",
         timestamp := 1 }]
      [] []
      [{ id := "x", type := .other, emoji := "", tenant := "b", description := "",
         timestamp := 2 }] =
      [{ id := "x", type := .other, emoji := "", tenant := "b", description := "",
         timestamp := 2 }]
    ∧ ({ id := "x", type := .other, emoji := "", tenant := "b", description := "",
         timestamp := 2 } : PlatformEvent) ≠
      { id := "x", type := .other, emoji := "", tenant := "a", description := "",
        timestamp := 1 } := by
  decide

/-- C1 amended: mergeAndDedup returns a list sorted in descending order of
timestamp with pairwise-distinct ids, drawn from the concatenation of
guiEvents, the signup events whose tenant does not collide with an
audit-format tenant_signup tenant, planEvents and mcpEvents; every event
of that concatenation is represented in the output by an event with the
same id and a timestamp at least as large (the duplicate that survives is
the first occurrence in the sorted order, ties resolved by concatenation
order). -/
theorem mergeAndDedup_spec (gui signup plan mcp : List PlatformEvent) :
    List.Pairwise tsGE (mergeAndDedup gui signup plan mcp)
    ∧ ((mergeAndDedup gui signup plan mcp).map (·.id)).Nodup
    ∧ (∀ e ∈ mergeAndDedup gui signup plan mcp,
        e ∈ gui ++ signup.filter (fun e2 => !(guiSignupTenants gui).contains e2.tenant)
          ++ plan ++ mcp)
    ∧ (∀ e ∈ signup, (guiSignupTenants gui).contains e.tenant →
        e ∉ signup.filter (fun e2 => !(guiSignupTenants gui).contains e2.tenant))
    ∧ (∀ e ∈ gui ++ signup.filter (fun e2 => !(guiSignupTenants gui).contains e2.tenant)
          ++ plan ++ mcp,
        ∃ e2 ∈ mergeAndDedup gui signup plan mcp,
          e2.id = e.id ∧ e.timestamp ≤ e2.timestamp) := by
  have hsorted : List.Pairwise tsGE
      (sortDesc (gui ++ signup.filter (fun e2 => !(guiSignupTenants gui).contains e2.tenant)
        ++ plan ++ mcp)) :=
    List.sorted_insertionSort tsGE _
  refine ⟨?_, ?_, ?_, ?_, ?_⟩
  · exact List.Pairwise.sublist (dedupById_sublist _ _) hsorted
  · exact (dedupById_nodup [] _).1
  · intro e he
    have h1 := (dedupById_sublist [] _).subset he
    exact (List.perm_insertionSort tsGE _).subset h1
  · intro e _ hcol
    intro hmem
    have := (List.mem_filter.mp hmem).2
    simp only [Bool.not_eq_true'] at this
    rw [hcol] at this
    cases this
  · intro e he
    have he2 : e ∈ sortDesc (gui ++ signup.filter
        (fun e2 => !(guiSignupTenants gui).contains e2.tenant) ++ plan ++ mcp) :=
      (List.perm_insertionSort tsGE _).mem_iff.mpr he
    exact dedupById_covers [] _ hsorted e he2 (by simp)

/-- Escape quotes the way the log pipeline does when it embeds a JSON
payload inside the msg field: every quote becomes backslash-quote. -/
def escapeQs (s : String) : String :=
  String.mk (s.data.flatMap (fun c => if c = '"' then ['\\', '"'] else [c]))

/-- The JSON text of the C5 counterexample payload. -/
def mcpJsonStr : String :=
  "\x7b\"action\":\"create-database\",\"success\":\"yes\",\"tenantId\":\"acme\",\"resource\":\"db1\"\x7d"

/-- A log line carrying that payload inside its msg field. -/
def mcpLine : String := "level=info msg=\"" ++ escapeQs mcpJsonStr ++ "\""

/-- The object JSON.parse returns for that payload. -/
def mcpObj : Json :=
  .jobj [("action", .jstr "create-database"), ("success", .jstr "yes"),
         ("tenantId", .jstr "acme"), ("resource", .jstr "db1")]

/-- Model of JSON.parse on the strings reachable from the counterexample
line: the embedded payload parses to its object, everything else fails. -/
def mcpParse : String → Option Json :=
  fun s => if s = mcpJsonStr then some mcpObj else none

/-- C5 counterexample: a record whose success field is the string yes is
not equal to the boolean true, yet parseMCPAuditLine produces an event,
because the source only tests JS truthiness of the field. -/
theorem parseMCP_success_cex :
    parseMCPAuditLine mcpParse "1700000000000000000" mcpLine =
      some { id := "1700000000000000000-acme-mcp_create_db", type := .instance_created,
             emoji := "🚀", tenant := "acme",
             description := "acme created database db1 🤖",
             timestamp := 1700000000000 }
    ∧ jsonField mcpObj "success" ≠ some (.jbool true) := by
  refine ⟨by decide, fun h => ?_⟩
  rw [show jsonField mcpObj "success" = some (.jstr "yes") from rfl] at h
  exact absurd (Option.some.inj h) (fun h2 => Json.noConfusion h2)

/-- C5 amended: parseMCPAuditLine returns no event when the embedded JSON
payload is malformed (the parse failure is caught, never propagated), when
the action field is absent or outside the fixed allow-list of write
actions, or when the success field is falsy (false, 0, empty string, null
or absent); a truthy success value that is not the boolean true is
accepted. -/
theorem parseMCPAuditLine_spec (jsonParse : String → Option Json) (ts line : String) :
    (∀ idx, findSub "msg=\"".data line.data = some idx →
      jsonParse (String.mk (unescapeQuotes ((line.data.drop (idx + 5)).dropLast))) = none →
      parseMCPAuditLine jsonParse ts line = none)
    ∧ (∀ idx data, findSub "msg=\"".data line.data = some idx →
        jsonParse (String.mk (unescapeQuotes ((line.data.drop (idx + 5)).dropLast))) =
          some data →
        (jsonField data "action" = none
          ∨ setHas MCP_WRITE_ACTIONS (jsonField data "action") = false) →
        parseMCPAuditLine jsonParse ts line = none)
    ∧ (∀ idx data, findSub "msg=\"".data line.data = some idx →
        jsonParse (String.mk (unescapeQuotes ((line.data.drop (idx + 5)).dropLast))) =
          some data →
        jsTruthyJ (jsonField data "success") = false →
        parseMCPAuditLine jsonParse ts line = none) := by
  refine ⟨?_, ?_, ?_⟩
  · intro idx hfind hparse
    simp [parseMCPAuditLine, hfind, hparse]
  · intro idx data hfind hparse hbad
    rcases hbad with hnone | hout
    · simp [parseMCPAuditLine, hfind, hparse, hnone, jsTruthyJ]
    · simp [parseMCPAuditLine, hfind, hparse, hout]
  · intro idx data hfind hparse hfalse
    simp [parseMCPAuditLine, hfind, hparse, hfalse]

theorem parseMCPAuditLine_spec_witness :
    parseMCPAuditLine (fun _ => none) "1" mcpLine = none :=
  (parseMCPAuditLine_spec (fun _ => none) "1" mcpLine).1 11 (by decide) rfl

/-- Is a fetch outcome a rejected promise. -/
def isNetError : FetchOutcome → Bool
  | .netError _ => true
  | _ => false

/-- The Loki body of the C6 scenario: one stream whose single line is the
audit example, so the gui fetch alone yields one event. -/
def guiBody : LokiBody :=
  { status := "success",
    result := [{ values := [("1700000000000000000",
        "customer=acme ... action create:instance on resource couchdb/acme-db-1")] }] }

/-- C6 counterexample: a transport failure (rejected fetch) of the signup
sub-query rejects Promise.all, so the catch branch answers with an empty
event list and an error status even though the gui sub-query had an event
to contribute — the other formats are not returned. -/
theorem live_transport_cex :
    liveGET (fun _ => none) (.success guiBody) (.netError "ECONNREFUSED")
        (.success { status := "success", result := [] })
        (.success { status := "success", result := [] }) =
      { events := [], isError := true }
    ∧ fetchGUIEvents (.success guiBody) =
        .ok [{ id := "1700000000000000000-acme-create_instance", type := .instance_created,
               emoji := "🚀", tenant := "acme",
               description := "acme created instance acme-db-1 (couchdb)",
               timestamp := 1700000000000 }] := by
  exact ⟨rfl, rfl⟩

/-- C6 amended: when every sub-query resolves (even with a non-2xx
response, which lokiQuery degrades to an empty result), the live endpoint
answers without error with the merge of the four result lists, a non-2xx
format contributing zero events; but a rejected fetch (transport failure)
of any sub-query rejects the combined Promise.all and the endpoint answers
with an error and an empty event list, dropping the other formats. -/
theorem live_failure_semantics (jsonParse : String → Option Json)
    (og os op om : FetchOutcome) (code : Nat) :
    (∀ g s p m, fetchGUIEvents og = .ok g → fetchSignupEvents os = .ok s →
      fetchPlanChangeEvents op = .ok p → fetchMCPEvents jsonParse om = .ok m →
      liveGET jsonParse og os op om = { events := mergeAndDedup g s p m, isError := false })
    ∧ fetchGUIEvents (.httpError code) = .ok []
    ∧ fetchSignupEvents (.httpError code) = .ok []
    ∧ fetchPlanChangeEvents (.httpError code) = .ok []
    ∧ fetchMCPEvents jsonParse (.httpError code) = .ok []
    ∧ (isNetError os = true →
        liveGET jsonParse og os op om = { events := [], isError := true }) := by
  refine ⟨?_, rfl, rfl, rfl, rfl, ?_⟩
  · intro g s p m h1 h2 h3 h4
    unfold liveGET
    rw [h1, h2, h3, h4]
  · intro hnet
    cases os with
    | netError msg =>
      unfold liveGET
      cases fetchGUIEvents og <;>
        cases fetchPlanChangeEvents op <;>
        cases fetchMCPEvents jsonParse om <;>
        rfl
    | httpError c => simp [isNetError] at hnet
    | success b => simp [isNetError] at hnet

theorem live_failure_semantics_witness :
    liveGET (fun _ => none) (.success guiBody) (.httpError 502)
        (.success { status := "success", result := [] })
        (.success { status := "success", result := [] }) =
      { events := mergeAndDedup
          [{ id := "1700000000000000000-acme-create_instance", type := .instance_created,
             emoji := "🚀", tenant := "acme",
             description := "acme created instance acme-db-1 (couchdb)",
             timestamp := 1700000000000 }] [] [] [],
        isError := false } :=
  (live_failure_semantics (fun _ => none) (.success guiBody) (.httpError 502)
      (.success { status := "success", result := [] })
      (.success { status := "success", result := [] }) 502).1
    _ _ _ _ rfl rfl rfl rfl

theorem findA_setA {α β : Type} [DecidableEq α] (l : List (α × β)) (k k2 : α) (v : β) :
    findA (setA l k v) k2 = if k2 = k then some v else findA l k2 := by
  induction l with
  | nil =>
    simp only [setA, findA]
    by_cases h : k = k2 <;> simp [h, eq_comm]
  | cons p rest ih =>
    by_cases hp : p.1 = k
    · simp only [setA, if_pos hp, findA]
      by_cases h2 : k = k2
      · subst h2
        simp [hp]
      · have h3 : ¬ k2 = k := fun h => h2 h.symm
        have h4 : ¬ p.1 = k2 := hp ▸ h2
        simp [h2, h3, h4, findA]
    · simp only [setA, if_neg hp, findA]
      by_cases h2 : p.1 = k2
      · have h3 : ¬ k2 = k := fun h => hp (h ▸ h2)
        simp [h2, h3]
      · simp [h2, ih]

theorem findA_append {α β : Type} [DecidableEq α] (l1 l2 : List (α × β)) (k : α) :
    findA (l1 ++ l2) k =
      (match findA l1 k with
       | some v => some v
       | none => findA l2 k) := by
  induction l1 with
  | nil => simp [findA]
  | cons p rest ih =>
    simp only [List.cons_append, findA]
    by_cases h : p.1 = k <;> simp [h, ih]

theorem findA_getD_eq (g : Grouped) (name : String) (ts : Nat) :
    findA ((findA g name).getD []) ts = groupedAt g name ts := by
  unfold groupedAt
  cases findA g name <;> simp [findA]

theorem groupedAt_setA_self (g : Grouped) (name : String) (m : TsMap) (ts : Nat) :
    groupedAt (setA g name m) name ts = findA m ts := by
  unfold groupedAt
  rw [findA_setA]
  simp

theorem groupedAt_setA_other (g : Grouped) (name name2 : String) (m : TsMap) (ts : Nat)
    (h : name2 ≠ name) :
    groupedAt (setA g name m) name2 ts = groupedAt g name2 ts := by
  unfold groupedAt
  rw [findA_setA]
  simp [h]

theorem groupedAt_append_new (g : Grouped) (dn : String) (hg : findA g dn = none)
    (name : String) (ts : Nat) :
    groupedAt (g ++ [(dn, [])]) name ts = groupedAt g name ts := by
  unfold groupedAt
  rw [findA_append]
  cases hfa : findA g name with
  | some m => simp
  | none =>
    simp only []
    by_cases h : dn = name
    · subst h
      simp [findA]
    · simp [findA, h]

/-- The contribution of a stored cell to the next accumulation: a stored
integer is kept, an absent cell and a stored NaN both count as 0. -/
def baseOf (o : Option (Option Int)) : Int :=
  match o with
  | some (some x) => x
  | _ => 0

theorem jsAccum_some (o : Option (Option Int)) (w : Int) :
    jsAccum o (some w) = some (baseOf o + w) := rfl

theorem baseOf_some_some (x : Int) : baseOf (some (some x)) = x := rfl

theorem parsedSum_append (l1 l2 : List String) :
    parsedSum (l1 ++ l2) = parsedSum l1 + parsedSum l2 := by
  simp [parsedSum]

theorem valuesAt_cons (t : Nat) (v : String) (rest : List (Nat × String)) (ts : Nat) :
    valuesAt ((t, v) :: rest) ts =
      if t = ts then v :: valuesAt rest ts else valuesAt rest ts := by
  by_cases h : t = ts <;> simp [valuesAt, h]

theorem processValues_other (name name2 : String) (h : name2 ≠ name)
    (vals : List (Nat × String)) (g : Grouped) (ts : Nat) :
    groupedAt (processValues name g vals) name2 ts = groupedAt g name2 ts := by
  induction vals generalizing g with
  | nil => rfl
  | cons p rest ih =>
    obtain ⟨t, v⟩ := p
    simp only [processValues]
    rw [ih]
    exact groupedAt_setA_other _ _ _ _ _ h

theorem processValues_same (name : String) (vals : List (Nat × String)) (g : Grouped)
    (ts : Nat)
    (hparse : ∀ q ∈ vals, (jsParseInt q.2).isSome = true)
    (hg : groupedAt g name ts ≠ some none) :
    groupedAt (processValues name g vals) name ts =
      (if valuesAt vals ts = [] then groupedAt g name ts
       else some (some (baseOf (groupedAt g name ts) + parsedSum (valuesAt vals ts)))) := by
  induction vals generalizing g with
  | nil => simp [processValues, valuesAt]
  | cons p rest ih =>
    obtain ⟨t, v⟩ := p
    obtain ⟨v2, hv2⟩ := Option.isSome_iff_exists.mp (hparse (t, v) (List.mem_cons_self _ _))
    have hparse_rest : ∀ q ∈ rest, (jsParseInt q.2).isSome = true :=
      fun q hq => hparse q (List.mem_cons_of_mem _ hq)
    simp only [processValues]
    have hstep : ∀ ts2 : Nat,
        groupedAt (setA g name (setA ((findA g name).getD []) t
          (jsAccum (findA ((findA g name).getD []) t) (jsParseInt v)))) name ts2 =
          (if ts2 = t then some (jsAccum (groupedAt g name t) (jsParseInt v))
           else groupedAt g name ts2) := by
      intro ts2
      rw [groupedAt_setA_self, findA_setA, findA_getD_eq, findA_getD_eq]
    have hg2 : groupedAt (setA g name (setA ((findA g name).getD []) t
        (jsAccum (findA ((findA g name).getD []) t) (jsParseInt v)))) name ts ≠ some none := by
      rw [hstep ts]
      by_cases h : ts = t
      · simp [h, hv2, jsAccum_some]
      · simp only [if_neg h]
        exact hg
    rw [ih _ hparse_rest hg2, hstep ts, valuesAt_cons]
    by_cases h : t = ts
    · subst h
      have hps : parsedSum (v :: valuesAt rest t) = v2 + parsedSum (valuesAt rest t) := by
        simp [parsedSum, hv2]
      by_cases h2 : valuesAt rest t = []
      · simp [h2, parsedSum, hv2, jsAccum_some, baseOf]
      · simp only [if_pos rfl, eq_self_iff_true, if_true, hv2, jsAccum_some, if_neg h2,
          if_neg (List.cons_ne_nil v (valuesAt rest t)), baseOf_some_some, hps]
        rw [add_assoc]
    · have hne : ¬ ts = t := fun hh => h hh.symm
      simp only [if_neg h, if_neg hne]

theorem processResult_at (g : Grouped) (r : PromResult) (name : String) (ts : Nat)
    (hparse : ∀ q ∈ r.values.getD [], (jsParseInt q.2).isSome = true)
    (hg : groupedAt g name ts ≠ some none) :
    groupedAt (processResult g r) name ts =
      (if logicalName r = name then
        (if valuesAt (r.values.getD []) ts = [] then groupedAt g name ts
         else some (some (baseOf (groupedAt g name ts)
           + parsedSum (valuesAt (r.values.getD []) ts))))
       else groupedAt g name ts) := by
  simp only [processResult]
  have hg1 : groupedAt (if (findA g (logicalName r)).isSome then g
      else g ++ [(logicalName r, [])]) name ts = groupedAt g name ts := by
    split
    · rfl
    · rename_i hnone
      exact groupedAt_append_new g _ (Option.not_isSome_iff_eq_none.mp hnone) name ts
  by_cases h : logicalName r = name
  · rw [h] at hg1 ⊢
    rw [if_pos rfl]
    rw [processValues_same name _ _ ts hparse (by rw [hg1]; exact hg), hg1]
  · rw [if_neg h]
    rw [processValues_other _ _ (fun hh => h hh.symm) _ _ ts]
    exact hg1

theorem contributions_cons (r : PromResult) (rest : List PromResult) (name : String)
    (ts : Nat) :
    contributions (r :: rest) name ts =
      (if logicalName r = name then valuesAt (r.values.getD []) ts else [])
        ++ contributions rest name ts := by
  simp [contributions]

theorem foldl_processResult_at (results : List PromResult) (g : Grouped)
    (name : String) (ts : Nat)
    (hparse : ∀ r ∈ results, ∀ q ∈ r.values.getD [], (jsParseInt q.2).isSome = true)
    (hg : groupedAt g name ts ≠ some none) :
    groupedAt (results.foldl processResult g) name ts =
      (if contributions results name ts = [] then groupedAt g name ts
       else some (some (baseOf (groupedAt g name ts)
         + parsedSum (contributions results name ts)))) := by
  induction results generalizing g with
  | nil => simp [contributions]
  | cons r rest ih =>
    simp only [List.foldl_cons]
    have hparse_r := hparse r (List.mem_cons_self _ _)
    have hparse_rest : ∀ r2 ∈ rest, ∀ q ∈ r2.values.getD [], (jsParseInt q.2).isSome = true :=
      fun r2 h2 => hparse r2 (List.mem_cons_of_mem _ h2)
    have hstep := processResult_at g r name ts hparse_r hg
    have hg2 : groupedAt (processResult g r) name ts ≠ some none := by
      rw [hstep]
      split
      · split
        · exact hg
        · simp
      · exact hg
    rw [ih _ hparse_rest hg2, hstep, contributions_cons]
    by_cases h1 : logicalName r = name
    · simp only [if_pos h1, eq_self_iff_true, if_true]
      by_cases h2 : valuesAt (r.values.getD []) ts = []
      · simp only [if_pos h2, h2, eq_self_iff_true, if_true, List.nil_append]
      · simp only [if_neg h2]
        by_cases h3 : contributions rest name ts = []
        · simp only [if_pos h3, h3, eq_self_iff_true, if_true, List.append_nil, if_neg h2]
        · have h4 : valuesAt (r.values.getD []) ts ++ contributions rest name ts ≠ [] := by
            intro hh
            exact h2 (List.append_eq_nil.mp hh).1
          simp only [if_neg h3, if_neg h4, parsedSum_append, baseOf_some_some]
          rw [add_assoc]
    · simp only [if_neg h1, List.nil_append]

/-- C9: in the drill-down grouping, every raw series is booked under the
logical name obtained by stripping the trailing hyphen-delimited
alphanumeric hash segment (4 to 12 characters) from its controller label,
and whenever at least one raw series contributes samples at a timestamp,
the grouped value at that logical name and timestamp is the sum of the
parsed values of all contributing samples; in particular the names
web-7f9c8d and web-1a2b3c both collapse to web. -/
theorem drilldown_grouping_spec (results : List PromResult) (name : String) (ts : Nat)
    (hparse : ∀ r ∈ results, ∀ q ∈ r.values.getD [], (jsParseInt q.2).isSome = true)
    (hcon : contributions results name ts ≠ []) :
    groupedAt (drilldownGrouped results) name ts =
      some (some (parsedSum (contributions results name ts)))
    ∧ stripRsHash "web-7f9c8d" = "web" ∧ stripRsHash "web-1a2b3c" = "web" := by
  refine ⟨?_, by decide, by decide⟩
  have hbase : groupedAt ([] : Grouped) name ts = none := rfl
  have h := foldl_processResult_at results [] name ts hparse (by rw [hbase]; simp)
  rw [drilldownGrouped, h, if_neg hcon, hbase]
  simp [baseOf]

theorem drilldown_grouping_spec_witness :
    groupedAt (drilldownGrouped
      [{ labelNamespace := none, labelCreatedByName := some "web-7f9c8d",
         values := some [(100, "5")] },
       { labelNamespace := none, labelCreatedByName := some "web-1a2b3c",
         values := some [(100, "3")] }]) "web" 100 = some (some 8) :=
  ((drilldown_grouping_spec
      [{ labelNamespace := none, labelCreatedByName := some "web-7f9c8d",
         values := some [(100, "5")] },
       { labelNamespace := none, labelCreatedByName := some "web-1a2b3c",
         values := some [(100, "3")] }] "web" 100
      (by decide) (by decide)).1).trans (by decide)

theorem mergeAndDedup_spec_witness :
    ∃ e2 ∈ mergeAndDedup
        [{ id := "a", type := .other, emoji := "", tenant := "t", description := "",
           timestamp := 5 }] [] [] [],
      e2.id = ({ id := "a", type := .other, emoji := "", tenant := "t", description := "",
                 timestamp := 5 } : PlatformEvent).id
      ∧ ({ id := "a", type := .other, emoji := "", tenant := "t", description := "",
           timestamp := 5 } : PlatformEvent).timestamp ≤ e2.timestamp :=
  (mergeAndDedup_spec
      [{ id := "a", type := .other, emoji := "", tenant := "t", description := "",
         timestamp := 5 }] [] [] []).2.2.2.2
    { id := "a", type := .other, emoji := "", tenant := "t", description := "",
      timestamp := 5 }
    (by decide)
